import Mathlib

/-!
# Rate limiter middleware (`ratelimit.go`)

A shallow embedding of the package `ratelimit`: the identity resolver
`getClientAddr`, the two handler variants `Limiter.Middleware` and
`Limiter.MiddlewareWithSlog`, and the environment they run against (request
headers, response writer, the Redis client, the inner handler, the `slog`
sink).  Go `int` and `time.Duration` values are `Int`.
-/

namespace RateLimit

/-! ## Request headers -/

/-- Request headers (`http.Header`, a map from canonical header names to their
values in arrival order), kept as an association list. -/
structure Header where
  entries : List (String × List String)
deriving DecidableEq, Repr

/-- Values stored under a key (`h[key]`): the empty slice when the key is not in
the map. -/
def Header.Values (h : Header) (key : String) : List String :=
  (h.entries.lookup key).getD []

/-- Method `Header.Get`: the first value stored under the key, or the empty
string when there is none.  The three names the package asks for are already in
canonical form, so canonicalisation is the identity on them. -/
def Header.Get (h : Header) (key : String) : String :=
  match h.Values key with
  | [] => ""
  | v :: _ => v

/-- An inbound request; only its headers are read by the package. -/
structure Request where
  Header : Header
deriving DecidableEq, Repr

/-! ## Response writer -/

/-- A recording `http.ResponseWriter`: the header map, the status line once it
has been written, and the body bytes written so far. -/
structure ResponseWriter where
  header : List (String × String)
  status : Option Nat
  body : String
deriving DecidableEq, Repr

/-- A response writer nothing has been written to. -/
def ResponseWriter.fresh : ResponseWriter :=
  { header := [], status := none, body := "" }

/-- Header deletion (`h.Del`). -/
def ResponseWriter.Del (w : ResponseWriter) (key : String) : ResponseWriter :=
  { w with header := w.header.filter (fun kv => kv.1 != key) }

/-- Header assignment (`h.Set`): replaces whatever was stored under the key. -/
def ResponseWriter.Set (w : ResponseWriter) (key value : String) : ResponseWriter :=
  { w with header := w.header.filter (fun kv => kv.1 != key) ++ [(key, value)] }

/-- Method `WriteHeader`: the status line is written once; a second call is
ignored. -/
def ResponseWriter.WriteHeader (w : ResponseWriter) (code : Nat) : ResponseWriter :=
  match w.status with
  | none => { w with status := some code }
  | some _ => w

/-- Method `Write`: an implicit 200 status when none was written, then the bytes
are appended to the body. -/
def ResponseWriter.Write (w : ResponseWriter) (bytes : String) : ResponseWriter :=
  let w1 := w.WriteHeader 200
  { w1 with body := w1.body ++ bytes }

/-- Constant `http.StatusTooManyRequests`. -/
def StatusTooManyRequests : Nat := 429

/-- Standard-library helper `http.Error(w, error, code)`: drops `Content-Length`,
sets `Content-Type` and `X-Content-Type-Options`, writes the status line and
prints the message with `fmt.Fprintln`, that is followed by a line feed.  (Recent
releases drop a few more headers before writing; none adds another one.) -/
def httpError (w : ResponseWriter) (error : String) (code : Nat) : ResponseWriter :=
  let w1 := w.Del "Content-Length"
  let w2 := w1.Set "Content-Type" "text/plain; charset=utf-8"
  let w3 := w2.Set "X-Content-Type-Options" "nosniff"
  let w4 := w3.WriteHeader code
  w4.Write (error ++ "\n")

/-! ## Redis client -/

/-- Error values the package tells apart: the sentinel `redis.Nil` (key absent)
and every other error. -/
inductive RedisError where
  | Nil
  | Other (msg : String)
deriving DecidableEq, Repr

/-- Outcome of `Get(ctx, key).Int()` as the client reports it. -/
inductive IntReply where
  | Val (n : Int)
  | Absent
  | Failed (msg : String)
deriving DecidableEq, Repr

/-- The pair `(value, err)` that `Int()` hands back: the value is zero whenever
an error is reported. -/
def IntReply.Int : IntReply → Int × Option RedisError
  | .Val n => (n, none)
  | .Absent => (0, some .Nil)
  | .Failed msg => (0, some (.Other msg))

/-- Commands queued on a transaction pipeline. -/
inductive Cmd where
  | Incr (key : String)
  | Expire (key : String) (expiration : Int)
deriving DecidableEq, Repr

/-- The client handle `*redis.Client` as seen by the package, over a store state
`σ`: the count read, the two queueing calls of a transaction pipeline with the
error each reports through `.Err()`, and the execution of the queued batch.  Any
behaviour of the store, failures included, is an instance. -/
structure RedisClient (σ : Type) where
  Get : String → σ → IntReply × σ
  TxIncr : String → σ → Option RedisError × σ
  TxExpire : String → Int → σ → Option RedisError × σ
  TxExec : List Cmd → σ → Option RedisError × σ

/-- Store operations issued by a handler, in the order they are issued. -/
inductive StoreOp where
  | Get (key : String)
  | TxIncr (key : String)
  | TxExpire (key : String) (expiration : Int)
  | TxExec (batch : List Cmd)
deriving DecidableEq, Repr

/-! ## Diagnostics -/

/-- Severity of a `slog` record. -/
inductive Level where
  | Warn
  | Error
deriving DecidableEq, Repr

/-- One record emitted through `slog`: level, message and attributes. -/
structure LogRecord where
  level : Level
  msg : String
  attrs : List (String × String)
deriving DecidableEq, Repr

/-- A `slog.Logger` is the list of attributes attached with `With`. -/
abbrev Logger := List (String × String)

/-- Rendering of an error value as a log attribute. -/
def RedisError.text : RedisError → String
  | .Nil => "redis: nil"
  | .Other msg => msg

/-! ## The world a handler runs in -/

/-- Everything a handler can affect besides the response writer: the store,
the log of store operations issued, the number of calls of the inner handler,
and the diagnostic records emitted. -/
structure World (σ : Type) where
  store : σ
  ops : List StoreOp
  served : Nat
  logs : List LogRecord

/-- The inner handler (`next`).  It is opaque to the package: it maps the
response writer it receives to the writer after its own writes. -/
abbrev Handler := ResponseWriter → Request → ResponseWriter

/-- The call `next.ServeHTTP(w, r)`, counted in the world. -/
def ServeHTTP {σ : Type} (next : Handler) (w : ResponseWriter) (r : Request)
    (x : World σ) : ResponseWriter × World σ :=
  (next w r, { x with served := x.served + 1 })

/-- The call `RedisClient.Get(ctx, key).Int()`, recorded in the world. -/
def World.Get {σ : Type} (c : RedisClient σ) (key : String) (x : World σ) :
    (Int × Option RedisError) × World σ :=
  let res := c.Get key x.store
  (res.1.Int, { x with store := res.2, ops := x.ops ++ [StoreOp.Get key] })

/-- The call `tx.Incr(ctx, key).Err()`, recorded in the world. -/
def World.TxIncr {σ : Type} (c : RedisClient σ) (key : String) (x : World σ) :
    Option RedisError × World σ :=
  let res := c.TxIncr key x.store
  (res.1, { x with store := res.2, ops := x.ops ++ [StoreOp.TxIncr key] })

/-- The call `tx.Expire(ctx, key, d).Err()`, recorded in the world. -/
def World.TxExpire {σ : Type} (c : RedisClient σ) (key : String) (d : Int) (x : World σ) :
    Option RedisError × World σ :=
  let res := c.TxExpire key d x.store
  (res.1, { x with store := res.2, ops := x.ops ++ [StoreOp.TxExpire key d] })

/-- The call `tx.Exec(ctx)` on a pipeline holding `batch`, recorded in the
world. -/
def World.TxExec {σ : Type} (c : RedisClient σ) (batch : List Cmd) (x : World σ) :
    Option RedisError × World σ :=
  let res := c.TxExec batch x.store
  (res.1, { x with store := res.2, ops := x.ops ++ [StoreOp.TxExec batch] })

/-- A `slog` call at the given level, recorded in the world. -/
def World.Log {σ : Type} (logger : Logger) (level : Level) (msg : String)
    (args : List (String × String)) (x : World σ) : World σ :=
  { x with logs := x.logs ++ [{ level := level, msg := msg, attrs := logger ++ args }] }

/-! ## The package -/

/-- Type `Config`. -/
structure Config (σ : Type) where
  RedisClient : RedisClient σ
  MaxRequests : Int
  Duration : Int

/-- Type `Limiter`. -/
structure Limiter (σ : Type) where
  config : Config σ

/-- Function `NewLimiter`. -/
def NewLimiter {σ : Type} (config : Config σ) : Limiter σ :=
  { config := config }

/-- Function `getClientAddr`. -/
def getClientAddr (header : Header) : String :=
  let clientAddr := header.Get "Cf-Connecting-Ip"
  if clientAddr ≠ "" then clientAddr
  else
    let clientAddr := header.Get "X-Forwarded-For"
    if clientAddr ≠ "" then clientAddr
    else ""

/-- Window key, `fmt.Sprintf("httprate:%s", clientAddr)`. -/
def windowKey (clientAddr : String) : String :=
  "httprate:" ++ clientAddr

/-- Method `Limiter.Middleware`, applied to the inner handler `next`: the
handler it returns, run on a response writer, a request and a world. -/
def Limiter.Middleware {σ : Type} (l : Limiter σ) (next : Handler)
    (w : ResponseWriter) (r : Request) (x : World σ) : ResponseWriter × World σ :=
  let clientAddr := getClientAddr r.Header
  if clientAddr = "" then
    ServeHTTP next w r x
  else
    let key := windowKey clientAddr
    let got := World.Get l.config.RedisClient key x
    let current := got.1.1
    let err := got.1.2
    let x := got.2
    if err ≠ none ∧ err ≠ some RedisError.Nil then
      ServeHTTP next w r x
    else if current ≥ l.config.MaxRequests then
      (httpError w "Rate limit exceeded" StatusTooManyRequests, x)
    else
      let tx : List Cmd := []
      let x := (World.TxIncr l.config.RedisClient key x).2
      let tx := tx ++ [Cmd.Incr key]
      let step :=
        if current = 0 then
          ((World.TxExpire l.config.RedisClient key l.config.Duration x).2,
            tx ++ [Cmd.Expire key l.config.Duration])
        else (x, tx)
      let x := step.1
      let tx := step.2
      let x := (World.TxExec l.config.RedisClient tx x).2
      ServeHTTP next w r x

/-- Method `Limiter.MiddlewareWithSlog`, applied to the inner handler `next`. -/
def Limiter.MiddlewareWithSlog {σ : Type} (l : Limiter σ) (next : Handler)
    (w : ResponseWriter) (r : Request) (x : World σ) : ResponseWriter × World σ :=
  let reqID := r.Header.Get "X-Request-Id"
  let logger : Logger := [("request_id", reqID)]
  let clientAddr := getClientAddr r.Header
  if clientAddr = "" then
    let x := World.Log logger Level.Error "Failed to extract client IP" [] x
    ServeHTTP next w r x
  else
    let key := windowKey clientAddr
    let logger := logger ++ [("key", key)]
    let got := World.Get l.config.RedisClient key x
    let current := got.1.1
    let err := got.1.2
    let x := got.2
    if err ≠ none ∧ err ≠ some RedisError.Nil then
      let x := World.Log logger Level.Error "Redis failed get value"
        [("error", (err.map RedisError.text).getD "")] x
      ServeHTTP next w r x
    else if current ≥ l.config.MaxRequests then
      let x := World.Log logger Level.Warn "Rate limit exceeded" [] x
      (httpError w "Rate limit exceeded" StatusTooManyRequests, x)
    else
      let tx : List Cmd := []
      let incr := World.TxIncr l.config.RedisClient key x
      let tx := tx ++ [Cmd.Incr key]
      let x :=
        match incr.1 with
        | some e => World.Log logger Level.Error "Redis failed incr value" [("error", e.text)] incr.2
        | none => incr.2
      let step :=
        if current = 0 then
          let expire := World.TxExpire l.config.RedisClient key l.config.Duration x
          (match expire.1 with
            | some e => World.Log logger Level.Error "Redis failed set TTL" [("error", e.text)] expire.2
            | none => expire.2,
            tx ++ [Cmd.Expire key l.config.Duration])
        else (x, tx)
      let x := step.1
      let tx := step.2
      let exec := World.TxExec l.config.RedisClient tx x
      let x :=
        match exec.1 with
        | some e => World.Log logger Level.Error "Redis failed execute" [("error", e.text)] exec.2
        | none => exec.2
      ServeHTTP next w r x

/-! ## Reference store -/

/-- A counter record of the store: its count and, once an expiry has been set,
the lifetime it was set to (`none` for a record that never expires). -/
structure Entry where
  count : Int
  ttl : Option Int
deriving DecidableEq, Repr

/-- State of the reference store: the records by key, and the keys whose
lifetime runs out after the next count read and before the next batch
executes. -/
structure Redis where
  data : String → Option Entry
  lapse : List String

/-- The store with no record. -/
def Redis.empty : Redis :=
  { data := fun _ => none, lapse := [] }

/-- Largest value a counter can hold (`INCR` works on signed 64-bit values). -/
def maxCount : Int := 2 ^ 63 - 1

/-- Writes a record. -/
def Redis.put (s : Redis) (key : String) (e : Entry) : Redis :=
  { s with data := fun k => if k = key then some e else s.data k }

/-- Removes a record. -/
def Redis.del (s : Redis) (key : String) : Redis :=
  { s with data := fun k => if k = key then none else s.data k }

/-- The lifetime of a record runs out: a record carrying an expiry is removed, a
record without one stays. -/
def Redis.elapse (s : Redis) (key : String) : Redis :=
  match s.data key with
  | some e => if e.ttl.isSome then s.del key else s
  | none => s

/-- Command `INCR key`: an absent key is created at 1 without expiry, a present
one is incremented keeping its expiry; a counter at its largest value is left as
it is. -/
def Redis.incr (s : Redis) (key : String) : Redis :=
  match s.data key with
  | none => s.put key { count := 1, ttl := none }
  | some e => if e.count = maxCount then s else s.put key { e with count := e.count + 1 }

/-- Command `EXPIRE key d`: no effect on an absent key; a positive lifetime is
attached to a present one, a non-positive lifetime deletes it. -/
def Redis.expire (s : Redis) (key : String) (d : Int) : Redis :=
  match s.data key with
  | none => s
  | some e => if 0 < d then s.put key { e with ttl := some d } else s.del key

/-- Effect of one queued command. -/
def Redis.apply (s : Redis) : Cmd → Redis
  | .Incr key => s.incr key
  | .Expire key d => s.expire key d

/-- Execution of a batch: the lifetimes due to run out before it do so, then
the commands take effect in order. -/
def Redis.exec (s : Redis) (batch : List Cmd) : Redis :=
  batch.foldl Redis.apply { s.lapse.foldl Redis.elapse s with lapse := [] }

/-- Modelled from the spec: the external counter store of section 6
(GET-integer, INCR, EXPIRE, and the batch of the latter two), with every
operation succeeding.  The client library and the server are not part of the
package. -/
def redis : RedisClient Redis where
  Get := fun key s =>
    (match s.data key with
      | some e => IntReply.Val e.count
      | none => IntReply.Absent, s)
  TxIncr := fun _ s => (none, s)
  TxExpire := fun _ _ s => (none, s)
  TxExec := fun batch s => (none, s.exec batch)

/-- The world before any request: a given store, nothing issued, served or
logged. -/
def World.init {σ : Type} (s : σ) : World σ :=
  { store := s, ops := [], served := 0, logs := [] }

/-- The same request handled `k` times in a row by `Limiter.Middleware`, each
time on a fresh response writer, nothing happening in the store in between. -/
def serveN {σ : Type} (l : Limiter σ) (next : Handler) (r : Request) :
    Nat → World σ → World σ
  | 0, x => x
  | k + 1, x => (l.Middleware next ResponseWriter.fresh r (serveN l next r k x)).2

/-! ## Vocabulary of the statements -/

/-- Window key of a request. -/
def Request.key (r : Request) : String :=
  windowKey (getClientAddr r.Header)

/-- What the count read of a request reports in a given world. -/
def Limiter.read {σ : Type} (l : Limiter σ) (r : Request) (x : World σ) : IntReply :=
  (l.config.RedisClient.Get r.key x.store).1

/-- The value of `current` after the count read of a request. -/
def Limiter.current {σ : Type} (l : Limiter σ) (r : Request) (x : World σ) : Int :=
  (l.read r x).Int.1

/-- Store state right after the count read of a request. -/
def Limiter.afterRead {σ : Type} (l : Limiter σ) (r : Request) (x : World σ) : σ :=
  (l.config.RedisClient.Get r.key x.store).2

/-- The batch a request with the given `current` puts on its pipeline. -/
def batchFor (key : String) (current duration : Int) : List Cmd :=
  if current = 0 then [Cmd.Incr key, Cmd.Expire key duration] else [Cmd.Incr key]

/-- The store operations a request with the given `current` issues after its
count read when it is below the limit. -/
def opsFor (key : String) (current duration : Int) : List StoreOp :=
  if current = 0 then
    [StoreOp.TxIncr key, StoreOp.TxExpire key duration,
      StoreOp.TxExec [Cmd.Incr key, Cmd.Expire key duration]]
  else
    [StoreOp.TxIncr key, StoreOp.TxExec [Cmd.Incr key]]

/-! ## Sample inputs -/

/-- A request from client `A`, identified by its forwarded-for header. -/
def reqA : Request :=
  { Header := { entries := [("X-Forwarded-For", ["A"])] } }

/-- A request without any identifying header. -/
def reqAnon : Request :=
  { Header := { entries := [("Accept", ["*/*"])] } }

/-- Limit of three requests per sixty units of time on the reference store. -/
def lim3 : Limiter Redis :=
  NewLimiter { RedisClient := redis, MaxRequests := 3, Duration := 60 }

/-- An inner handler that answers 200 with a short body. -/
def okHandler : Handler :=
  fun w _ => w.Write "ok"

/-- A client whose store is unreachable: every call reports an error. -/
def downRedis : RedisClient Unit where
  Get := fun _ s => (IntReply.Failed "dial tcp: connection refused", s)
  TxIncr := fun _ s => (some (RedisError.Other "connection refused"), s)
  TxExpire := fun _ _ s => (some (RedisError.Other "connection refused"), s)
  TxExec := fun _ s => (some (RedisError.Other "connection refused"), s)

/-- A client whose count read gives a fixed reply and whose pipeline calls
report the given errors. -/
def flakyRedis (reply : IntReply) (eIncr eExpire eExec : Option RedisError) :
    RedisClient Unit where
  Get := fun _ s => (reply, s)
  TxIncr := fun _ s => (eIncr, s)
  TxExpire := fun _ _ s => (eExpire, s)
  TxExec := fun _ s => (eExec, s)

/-! ## Sequential executions with expiry -/

/-- The `k`-th of a series of identical requests (`k` counted from one): the
handler run on writer `w` after `k - 1` earlier requests. -/
def kthRequest {σ : Type} (l : Limiter σ) (next : Handler) (r : Request)
    (w : ResponseWriter) (k : Nat) (x : World σ) : ResponseWriter × World σ :=
  l.Middleware next w r (serveN l next r (k - 1) x)

/-- The lifetime of a key is due to run out between the count read and the
batch of the next request. -/
def Redis.schedule (s : Redis) (key : String) : Redis :=
  { s with lapse := s.lapse ++ [key] }

/-- One step of a sequential execution: a request is handled from start to end,
the lifetime of a key runs out between two requests, or it is due to run out
inside the next request, after its count read and before its batch. -/
inductive Step where
  | Request (r : Request)
  | Expire (key : String)
  | ExpireAfterRead (key : String)
deriving DecidableEq, Repr

/-- Effect of one step on the world, requests being handled by
`Limiter.Middleware` on a fresh writer. -/
def step (l : Limiter Redis) (next : Handler) (x : World Redis) : Step → World Redis
  | .Request r => (l.Middleware next ResponseWriter.fresh r x).2
  | .Expire key => { x with store := x.store.elapse key }
  | .ExpireAfterRead key => { x with store := x.store.schedule key }

/-- A sequential execution: the steps take effect one after another. -/
def run (l : Limiter Redis) (next : Handler) (steps : List Step) (x : World Redis) :
    World Redis :=
  steps.foldl (step l next) x

/-- Every record of the store carries an expiry of at most `duration`. -/
def Redis.allExpire (s : Redis) (duration : Int) : Prop :=
  ∀ key e, s.data key = some e → ∃ d, e.ttl = some d ∧ d ≤ duration

/-- A step that leaves no expiry pending inside a request. -/
def Step.between : Step → Bool
  | .ExpireAfterRead _ => false
  | _ => true

/-! ## Branches of `Limiter.Middleware` -/

theorem IntReply.Int_err_ok (reply : IntReply) (h : ∀ msg, reply ≠ IntReply.Failed msg) :
    ¬ (reply.Int.2 ≠ none ∧ reply.Int.2 ≠ some RedisError.Nil) := by
  cases reply with
  | Val n => simp [IntReply.Int]
  | Absent => simp [IntReply.Int]
  | Failed msg => exact absurd rfl (h msg)

/-- Without a client address the handler is the inner handler. -/
theorem Middleware_unresolved {σ : Type} (l : Limiter σ) (next : Handler)
    (w : ResponseWriter) (r : Request) (x : World σ)
    (h : getClientAddr r.Header = "") :
    l.Middleware next w r x = (next w r, { x with served := x.served + 1 }) := by
  simp [Limiter.Middleware, h, ServeHTTP]

/-- A failed count read leads straight to the inner handler. -/
theorem Middleware_read_failed {σ : Type} (l : Limiter σ) (next : Handler)
    (w : ResponseWriter) (r : Request) (x : World σ) (msg : String)
    (h : getClientAddr r.Header ≠ "") (hget : l.read r x = IntReply.Failed msg) :
    l.Middleware next w r x
      = (next w r,
          { x with store := l.afterRead r x, ops := x.ops ++ [StoreOp.Get r.key],
                   served := x.served + 1 }) := by
  unfold Limiter.read Request.key at hget
  simp [Limiter.Middleware, h, World.Get, hget, IntReply.Int, ServeHTTP, Limiter.afterRead,
    Request.key]

/-- A count at or above the limit leads to the error response and nothing else. -/
theorem Middleware_over {σ : Type} (l : Limiter σ) (next : Handler)
    (w : ResponseWriter) (r : Request) (x : World σ)
    (h : getClientAddr r.Header ≠ "") (hget : ∀ msg, l.read r x ≠ IntReply.Failed msg)
    (hmax : l.config.MaxRequests ≤ l.current r x) :
    l.Middleware next w r x
      = (httpError w "Rate limit exceeded" StatusTooManyRequests,
          { x with store := l.afterRead r x, ops := x.ops ++ [StoreOp.Get r.key] }) := by
  have herr := IntReply.Int_err_ok _ hget
  unfold Limiter.read Request.key at herr
  unfold Limiter.current Limiter.read Request.key at hmax
  unfold Limiter.Middleware
  simp only [h, if_false, World.Get]
  rw [if_neg herr, if_pos (ge_iff_le.mpr hmax)]
  rfl

/-- A count below the limit leads to the accounting calls and then the inner
handler. -/
theorem Middleware_under {σ : Type} (l : Limiter σ) (next : Handler)
    (w : ResponseWriter) (r : Request) (x : World σ)
    (h : getClientAddr r.Header ≠ "") (hget : ∀ msg, l.read r x ≠ IntReply.Failed msg)
    (hmax : l.current r x < l.config.MaxRequests) :
    (l.Middleware next w r x).1 = next w r ∧
    (l.Middleware next w r x).2.served = x.served + 1 ∧
    (l.Middleware next w r x).2.logs = x.logs ∧
    (l.Middleware next w r x).2.ops
      = x.ops ++ StoreOp.Get r.key :: opsFor r.key (l.current r x) l.config.Duration := by
  have herr := IntReply.Int_err_ok _ hget
  unfold Limiter.read Request.key at herr
  unfold Limiter.current Limiter.read Request.key at hmax
  unfold Limiter.Middleware
  simp only [h, if_false, World.Get]
  rw [if_neg herr, if_neg (not_le.mpr hmax)]
  unfold Limiter.current Limiter.read Request.key opsFor
  split <;> simp [ServeHTTP, World.TxIncr, World.TxExpire, World.TxExec, *]

/-! ## Identity resolution -/

/-- C9: `getClientAddr` returns the first `Cf-Connecting-Ip` value verbatim when
it is non-empty, whatever `X-Forwarded-For` holds; otherwise the first
`X-Forwarded-For` value verbatim when it is non-empty; otherwise the empty
string. -/
theorem getClientAddr_precedence (h : Header) :
    (∀ v vs, h.Values "Cf-Connecting-Ip" = v :: vs → v ≠ "" → getClientAddr h = v) ∧
    (∀ v vs, h.Get "Cf-Connecting-Ip" = "" → h.Values "X-Forwarded-For" = v :: vs → v ≠ "" →
      getClientAddr h = v) ∧
    (h.Get "Cf-Connecting-Ip" = "" → h.Get "X-Forwarded-For" = "" → getClientAddr h = "") := by
  refine ⟨?_, ?_, ?_⟩
  · intro v vs hv hne
    simp [getClientAddr, Header.Get, hv, hne]
  · intro v vs hcf hv hne
    have hx : h.Get "X-Forwarded-For" = v := by simp [Header.Get, hv]
    simp [getClientAddr, hcf, hx, hne]
  · intro hcf hxff
    simp [getClientAddr, hcf, hxff]

/-- Witness of C9: both headers set, only a multi-hop forwarded-for chain, and no
identifying header. -/
theorem getClientAddr_precedence_witness :
    getClientAddr { entries := [("X-Forwarded-For", ["10.0.0.1"]),
      ("Cf-Connecting-Ip", ["203.0.113.7"])] } = "203.0.113.7" ∧
    getClientAddr { entries := [("X-Forwarded-For", ["198.51.100.4, 10.0.0.1, 10.0.0.2"])] }
      = "198.51.100.4, 10.0.0.1, 10.0.0.2" ∧
    getClientAddr reqAnon.Header = "" :=
  ⟨(getClientAddr_precedence _).1 "203.0.113.7" [] (by decide) (by decide),
   (getClientAddr_precedence _).2.1 "198.51.100.4, 10.0.0.1, 10.0.0.2" [] (by decide)
     (by decide) (by decide),
   (getClientAddr_precedence _).2.2 (by decide) (by decide)⟩

/-! ## Fail-open branches -/

/-- C7: a request with no non-empty `Cf-Connecting-Ip` or `X-Forwarded-For`
value reaches the inner handler exactly once, gets no response from the limiter
itself, and causes no store operation, for every client, store state and
configuration. -/
theorem fail_open_on_missing_identity {σ : Type} (l : Limiter σ) (next : Handler)
    (w : ResponseWriter) (r : Request) (x : World σ)
    (hcf : r.Header.Get "Cf-Connecting-Ip" = "")
    (hxff : r.Header.Get "X-Forwarded-For" = "") :
    (l.Middleware next w r x).1 = next w r ∧
    (l.Middleware next w r x).2.served = x.served + 1 ∧
    (l.Middleware next w r x).2.ops = x.ops ∧
    (l.Middleware next w r x).2.store = x.store := by
  have h : getClientAddr r.Header = "" := by simp [getClientAddr, hcf, hxff]
  rw [Middleware_unresolved l next w r x h]
  exact ⟨rfl, rfl, rfl, rfl⟩

/-- Witness of C7: an anonymous request against a limiter with a limit of zero
and an unreachable store. -/
theorem fail_open_on_missing_identity_witness :
    ((NewLimiter ⟨downRedis, 0, 60⟩).Middleware okHandler ResponseWriter.fresh reqAnon
        (World.init ())).1 = okHandler ResponseWriter.fresh reqAnon ∧
    ((NewLimiter ⟨downRedis, 0, 60⟩).Middleware okHandler ResponseWriter.fresh reqAnon
        (World.init ())).2.served = (World.init ()).served + 1 ∧
    ((NewLimiter ⟨downRedis, 0, 60⟩).Middleware okHandler ResponseWriter.fresh reqAnon
        (World.init ())).2.ops = (World.init ()).ops ∧
    ((NewLimiter ⟨downRedis, 0, 60⟩).Middleware okHandler ResponseWriter.fresh reqAnon
        (World.init ())).2.store = (World.init ()).store :=
  fail_open_on_missing_identity (NewLimiter ⟨downRedis, 0, 60⟩) okHandler ResponseWriter.fresh
    reqAnon (World.init ()) (by decide) (by decide)

/-- C6: when the count read of an identified request reports an error other
than key-absent, the inner handler runs exactly once, the limiter writes no
response of its own, and the count read is the only store operation issued,
whatever the limit and the store contents are. -/
theorem fail_open_on_read_failure {σ : Type} (l : Limiter σ) (next : Handler)
    (w : ResponseWriter) (r : Request) (x : World σ) (msg : String)
    (hid : getClientAddr r.Header ≠ "") (hget : l.read r x = IntReply.Failed msg) :
    (l.Middleware next w r x).1 = next w r ∧
    (l.Middleware next w r x).2.served = x.served + 1 ∧
    (l.Middleware next w r x).2.ops = x.ops ++ [StoreOp.Get r.key] ∧
    (l.Middleware next w r x).2.store = l.afterRead r x := by
  rw [Middleware_read_failed l next w r x msg hid hget]
  exact ⟨rfl, rfl, rfl, rfl⟩

/-- Witness of C6: client `A` against an unreachable store and a limit of
zero. -/
theorem fail_open_on_read_failure_witness :
    ((NewLimiter ⟨downRedis, 0, 60⟩).Middleware okHandler ResponseWriter.fresh reqA
        (World.init ())).1 = okHandler ResponseWriter.fresh reqA ∧
    ((NewLimiter ⟨downRedis, 0, 60⟩).Middleware okHandler ResponseWriter.fresh reqA
        (World.init ())).2.served = (World.init ()).served + 1 ∧
    ((NewLimiter ⟨downRedis, 0, 60⟩).Middleware okHandler ResponseWriter.fresh reqA
        (World.init ())).2.ops = (World.init ()).ops ++ [StoreOp.Get reqA.key] ∧
    ((NewLimiter ⟨downRedis, 0, 60⟩).Middleware okHandler ResponseWriter.fresh reqA
        (World.init ())).2.store = (NewLimiter ⟨downRedis, 0, 60⟩).afterRead reqA (World.init ()) :=
  fail_open_on_read_failure (NewLimiter ⟨downRedis, 0, 60⟩) okHandler ResponseWriter.fresh
    reqA (World.init ()) "dial tcp: connection refused" (by decide) (by rfl)

/-! ## Branches of `Limiter.MiddlewareWithSlog` -/

/-- A count at or above the limit: the observable variant writes the same error
response after the same single store operation. -/
theorem MiddlewareWithSlog_over {σ : Type} (l : Limiter σ) (next : Handler)
    (w : ResponseWriter) (r : Request) (x : World σ)
    (h : getClientAddr r.Header ≠ "") (hget : ∀ msg, l.read r x ≠ IntReply.Failed msg)
    (hmax : l.config.MaxRequests ≤ l.current r x) :
    (l.MiddlewareWithSlog next w r x).1
        = httpError w "Rate limit exceeded" StatusTooManyRequests ∧
    (l.MiddlewareWithSlog next w r x).2.served = x.served ∧
    (l.MiddlewareWithSlog next w r x).2.ops = x.ops ++ [StoreOp.Get r.key] ∧
    (l.MiddlewareWithSlog next w r x).2.store = l.afterRead r x := by
  have herr := IntReply.Int_err_ok _ hget
  unfold Limiter.read Request.key at herr
  unfold Limiter.current Limiter.read Request.key at hmax
  unfold Limiter.MiddlewareWithSlog
  simp only [h, if_false, World.Get]
  rw [if_neg herr, if_pos (ge_iff_le.mpr hmax)]
  exact ⟨rfl, rfl, rfl, rfl⟩

/-! ## Rejection -/

/-- C4: when the count read of an identified request succeeds with a count at or
above the limit, the inner handler is not called, the count read is the only
store operation issued, and, the read itself leaving the store as it was, the
store after the request is the store before it. -/
theorem rejection_has_no_effects {σ : Type} (l : Limiter σ) (next : Handler)
    (w : ResponseWriter) (r : Request) (x : World σ) (n : Int)
    (hid : getClientAddr r.Header ≠ "") (hget : l.read r x = IntReply.Val n)
    (hmax : l.config.MaxRequests ≤ n) (hro : l.afterRead r x = x.store) :
    (l.Middleware next w r x).2.served = x.served ∧
    (l.Middleware next w r x).2.ops = x.ops ++ [StoreOp.Get r.key] ∧
    (l.Middleware next w r x).2.store = x.store ∧
    (l.Middleware next w r x).1 = httpError w "Rate limit exceeded" StatusTooManyRequests := by
  have hnf : ∀ msg, l.read r x ≠ IntReply.Failed msg := by simp [hget]
  have hcur : l.config.MaxRequests ≤ l.current r x := by
    simpa [Limiter.current, hget, IntReply.Int] using hmax
  rw [Middleware_over l next w r x hid hnf hcur]
  exact ⟨rfl, rfl, hro, rfl⟩

/-- Witness of C4: the fourth request of client `A` under a limit of three. -/
theorem rejection_has_no_effects_witness :
    (lim3.Middleware okHandler ResponseWriter.fresh reqA
        (serveN lim3 okHandler reqA 3 (World.init Redis.empty))).2.served
      = (serveN lim3 okHandler reqA 3 (World.init Redis.empty)).served ∧
    (lim3.Middleware okHandler ResponseWriter.fresh reqA
        (serveN lim3 okHandler reqA 3 (World.init Redis.empty))).2.ops
      = (serveN lim3 okHandler reqA 3 (World.init Redis.empty)).ops ++ [StoreOp.Get reqA.key] ∧
    (lim3.Middleware okHandler ResponseWriter.fresh reqA
        (serveN lim3 okHandler reqA 3 (World.init Redis.empty))).2.store
      = (serveN lim3 okHandler reqA 3 (World.init Redis.empty)).store ∧
    (lim3.Middleware okHandler ResponseWriter.fresh reqA
        (serveN lim3 okHandler reqA 3 (World.init Redis.empty))).1
      = httpError ResponseWriter.fresh "Rate limit exceeded" StatusTooManyRequests :=
  rejection_has_no_effects lim3 okHandler ResponseWriter.fresh reqA
    (serveN lim3 okHandler reqA 3 (World.init Redis.empty)) 3 (by decide) (by decide)
    (by decide) rfl

/-- Counterexample to C5 as stated: the body of the rejection response is not
the bare message, it ends in a line feed, and two headers are set with it. -/
theorem rejection_body_has_line_feed :
    (lim3.Middleware okHandler ResponseWriter.fresh reqA
        (serveN lim3 okHandler reqA 3 (World.init Redis.empty))).1.status = some 429 ∧
    (lim3.Middleware okHandler ResponseWriter.fresh reqA
        (serveN lim3 okHandler reqA 3 (World.init Redis.empty))).1.body
      ≠ "Rate limit exceeded" ∧
    (lim3.Middleware okHandler ResponseWriter.fresh reqA
        (serveN lim3 okHandler reqA 3 (World.init Redis.empty))).1.body
      = "Rate limit exceeded\n" ∧
    (lim3.MiddlewareWithSlog okHandler ResponseWriter.fresh reqA
        (serveN lim3 okHandler reqA 3 (World.init Redis.empty))).1.body
      ≠ "Rate limit exceeded" ∧
    (lim3.Middleware okHandler ResponseWriter.fresh reqA
        (serveN lim3 okHandler reqA 3 (World.init Redis.empty))).1.header
      = [("Content-Type", "text/plain; charset=utf-8"), ("X-Content-Type-Options", "nosniff")] := by
  decide

/-- C5, amended: for every rejected request both variants answer with
`http.Error(w, "Rate limit exceeded", 429)`; on a writer nothing was written to
this is status 429 and the message followed by a line feed as body, and the
only headers it adds are `Content-Type` and `X-Content-Type-Options`. -/
theorem rejection_response {σ : Type} (l : Limiter σ) (next : Handler)
    (w : ResponseWriter) (r : Request) (x : World σ)
    (hid : getClientAddr r.Header ≠ "") (hget : ∀ msg, l.read r x ≠ IntReply.Failed msg)
    (hmax : l.config.MaxRequests ≤ l.current r x)
    (hstatus : w.status = none) (hbody : w.body = "") :
    (l.Middleware next w r x).1 = httpError w "Rate limit exceeded" 429 ∧
    (l.MiddlewareWithSlog next w r x).1 = httpError w "Rate limit exceeded" 429 ∧
    (httpError w "Rate limit exceeded" 429).status = some 429 ∧
    (httpError w "Rate limit exceeded" 429).body = "Rate limit exceeded\n" ∧
    (∀ kv ∈ (httpError w "Rate limit exceeded" 429).header,
      kv ∈ w.header ∨ kv = ("Content-Type", "text/plain; charset=utf-8") ∨
        kv = ("X-Content-Type-Options", "nosniff")) := by
  refine ⟨?_, ?_, ?_, ?_, ?_⟩
  · rw [Middleware_over l next w r x hid hget hmax]; rfl
  · exact (MiddlewareWithSlog_over l next w r x hid hget hmax).1
  · simp [httpError, ResponseWriter.Write, ResponseWriter.WriteHeader, ResponseWriter.Set,
      ResponseWriter.Del, hstatus]
  · simp [httpError, ResponseWriter.Write, ResponseWriter.WriteHeader, ResponseWriter.Set,
      ResponseWriter.Del, hstatus, hbody]
  · intro kv hkv
    simp only [httpError, ResponseWriter.Write, ResponseWriter.WriteHeader, ResponseWriter.Set,
      ResponseWriter.Del, hstatus, List.mem_append, List.mem_filter, List.mem_singleton] at hkv
    rcases hkv with ⟨⟨⟨h, _⟩, _⟩ | h, _⟩ | h
    · exact Or.inl h
    · exact Or.inr (Or.inl h)
    · exact Or.inr (Or.inr h)

/-- Witness of the amended C5: the fourth request of client `A` under a limit of
three, on a fresh writer. -/
theorem rejection_response_witness :
    (lim3.Middleware okHandler ResponseWriter.fresh reqA
        (serveN lim3 okHandler reqA 3 (World.init Redis.empty))).1
      = httpError ResponseWriter.fresh "Rate limit exceeded" 429 ∧
    (lim3.MiddlewareWithSlog okHandler ResponseWriter.fresh reqA
        (serveN lim3 okHandler reqA 3 (World.init Redis.empty))).1
      = httpError ResponseWriter.fresh "Rate limit exceeded" 429 ∧
    (httpError ResponseWriter.fresh "Rate limit exceeded" 429).status = some 429 ∧
    (httpError ResponseWriter.fresh "Rate limit exceeded" 429).body = "Rate limit exceeded\n" ∧
    (∀ kv ∈ (httpError ResponseWriter.fresh "Rate limit exceeded" 429).header,
      kv ∈ ResponseWriter.fresh.header ∨ kv = ("Content-Type", "text/plain; charset=utf-8") ∨
        kv = ("X-Content-Type-Options", "nosniff")) :=
  rejection_response lim3 okHandler ResponseWriter.fresh reqA
    (serveN lim3 okHandler reqA 3 (World.init Redis.empty)) (by decide)
    (by
      intro msg
      rw [show lim3.read reqA (serveN lim3 okHandler reqA 3 (World.init Redis.empty))
        = IntReply.Val 3 from by decide]
      simp)
    (by decide) rfl rfl

/-! ## Accounting -/

/-- C8: for an identified request whose count (read, or zero for an absent key)
is below the limit, whatever each pipeline call reports, the increment is
queued, the expiry is queued when the count was zero, the batch is executed,
and the inner handler then runs exactly once with no response written by the
limiter. -/
theorem write_failures_never_block {σ : Type} (l : Limiter σ) (next : Handler)
    (w : ResponseWriter) (r : Request) (x : World σ)
    (hid : getClientAddr r.Header ≠ "") (hget : ∀ msg, l.read r x ≠ IntReply.Failed msg)
    (hlt : l.current r x < l.config.MaxRequests) :
    (l.Middleware next w r x).1 = next w r ∧
    (l.Middleware next w r x).2.served = x.served + 1 ∧
    (l.Middleware next w r x).2.ops
      = x.ops ++ [StoreOp.Get r.key, StoreOp.TxIncr r.key]
          ++ (if l.current r x = 0 then [StoreOp.TxExpire r.key l.config.Duration] else [])
          ++ [StoreOp.TxExec (batchFor r.key (l.current r x) l.config.Duration)] := by
  obtain ⟨h1, h2, _, h4⟩ := Middleware_under l next w r x hid hget hlt
  refine ⟨h1, h2, ?_⟩
  rw [h4]
  unfold opsFor batchFor
  split <;> simp

/-- Witness of C8: first request of client `A` while the increment, the expiry
and the execution all report an error. -/
theorem write_failures_never_block_witness :
    ((NewLimiter ⟨flakyRedis IntReply.Absent (some (RedisError.Other "queue"))
          (some (RedisError.Other "queue")) (some (RedisError.Other "EXECABORT")), 3, 60⟩).Middleware
        okHandler ResponseWriter.fresh reqA (World.init ())).1
      = okHandler ResponseWriter.fresh reqA ∧
    ((NewLimiter ⟨flakyRedis IntReply.Absent (some (RedisError.Other "queue"))
          (some (RedisError.Other "queue")) (some (RedisError.Other "EXECABORT")), 3, 60⟩).Middleware
        okHandler ResponseWriter.fresh reqA (World.init ())).2.served = 1 ∧
    ((NewLimiter ⟨flakyRedis IntReply.Absent (some (RedisError.Other "queue"))
          (some (RedisError.Other "queue")) (some (RedisError.Other "EXECABORT")), 3, 60⟩).Middleware
        okHandler ResponseWriter.fresh reqA (World.init ())).2.ops
      = [StoreOp.Get "httprate:A", StoreOp.TxIncr "httprate:A",
          StoreOp.TxExpire "httprate:A" 60,
          StoreOp.TxExec [Cmd.Incr "httprate:A", Cmd.Expire "httprate:A" 60]] :=
  write_failures_never_block
    (NewLimiter ⟨flakyRedis IntReply.Absent (some (RedisError.Other "queue"))
      (some (RedisError.Other "queue")) (some (RedisError.Other "EXECABORT")), 3, 60⟩)
    okHandler ResponseWriter.fresh reqA (World.init ()) (by decide)
    (by
      intro msg
      rw [show Limiter.read (NewLimiter ⟨flakyRedis IntReply.Absent
          (some (RedisError.Other "queue")) (some (RedisError.Other "queue"))
          (some (RedisError.Other "EXECABORT")), 3, 60⟩) reqA (World.init ())
        = IntReply.Absent from rfl]
      simp)
    (by decide)

/-! ## The two variants -/

/-- C10: on every configuration, request, world and store behaviour the
observable variant writes the same response, calls the inner handler as often,
issues the same store operations and leaves the same store as the silent
variant, which itself emits no diagnostic record. -/
theorem variants_agree {σ : Type} (l : Limiter σ) (next : Handler)
    (w : ResponseWriter) (r : Request) (x : World σ) :
    (l.MiddlewareWithSlog next w r x).1 = (l.Middleware next w r x).1 ∧
    (l.MiddlewareWithSlog next w r x).2.served = (l.Middleware next w r x).2.served ∧
    (l.MiddlewareWithSlog next w r x).2.ops = (l.Middleware next w r x).2.ops ∧
    (l.MiddlewareWithSlog next w r x).2.store = (l.Middleware next w r x).2.store ∧
    (l.Middleware next w r x).2.logs = x.logs := by
  unfold Limiter.MiddlewareWithSlog Limiter.Middleware
  by_cases hid : getClientAddr r.Header = ""
  · simp [hid, ServeHTTP, World.Log]
  · simp only [hid, if_false]
    split
    · simp [ServeHTTP, World.Log, World.Get]
    · split
      · simp [World.Log, World.Get]
      · split <;>
          simp only [World.TxIncr, World.TxExpire, World.TxExec, ServeHTTP, World.Get] <;>
          (repeat' split) <;> simp [World.Log]

/-! ## The reference store -/

theorem redis_read (N D : Int) (r : Request) (x : World Redis) :
    (NewLimiter ⟨redis, N, D⟩).read r x
      = (match x.store.data r.key with
          | some e => IntReply.Val e.count
          | none => IntReply.Absent) := rfl

theorem redis_read_not_failed (N D : Int) (r : Request) (x : World Redis) (msg : String) :
    (NewLimiter ⟨redis, N, D⟩).read r x ≠ IntReply.Failed msg := by
  rw [redis_read]
  split <;> simp

theorem redis_current_absent (N D : Int) (r : Request) (x : World Redis)
    (h : x.store.data r.key = none) : (NewLimiter ⟨redis, N, D⟩).current r x = 0 := by
  simp [Limiter.current, redis_read, h, IntReply.Int]

theorem redis_current_present (N D : Int) (r : Request) (x : World Redis) (e : Entry)
    (h : x.store.data r.key = some e) : (NewLimiter ⟨redis, N, D⟩).current r x = e.count := by
  simp [Limiter.current, redis_read, h, IntReply.Int]

/-- On the reference store a request below the limit leaves the store its batch
produces. -/
theorem Middleware_redis_under (N D : Int) (next : Handler) (w : ResponseWriter)
    (r : Request) (x : World Redis) (hid : getClientAddr r.Header ≠ "")
    (hlt : (NewLimiter ⟨redis, N, D⟩).current r x < N) :
    ((NewLimiter ⟨redis, N, D⟩).Middleware next w r x).2.store
      = x.store.exec (batchFor r.key ((NewLimiter ⟨redis, N, D⟩).current r x) D) := by
  have herr := IntReply.Int_err_ok _ (redis_read_not_failed N D r x)
  have hlt2 : (NewLimiter ⟨redis, N, D⟩).current r x
      < (NewLimiter ⟨redis, N, D⟩).config.MaxRequests := hlt
  unfold Limiter.read Request.key at herr
  unfold Limiter.current Limiter.read Request.key at hlt2
  unfold Limiter.Middleware
  simp only [hid, if_false, World.Get]
  rw [if_neg herr, if_neg (not_le.mpr hlt2)]
  unfold Limiter.current Limiter.read Request.key batchFor
  split <;> simp [ServeHTTP, World.TxIncr, World.TxExpire, World.TxExec, NewLimiter, redis, *]

theorem exec_open (s : Redis) (key : String) (D : Int) (hD : 0 < D)
    (habs : s.data key = none) (hq : s.lapse = []) :
    (s.exec [Cmd.Incr key, Cmd.Expire key D]).data key = some ⟨1, some D⟩ ∧
    (s.exec [Cmd.Incr key, Cmd.Expire key D]).lapse = [] := by
  simp [Redis.exec, hq, Redis.apply, Redis.incr, habs, Redis.expire, Redis.put, hD]

theorem exec_count (s : Redis) (key : String) (e : Entry)
    (hpres : s.data key = some e) (hmax : e.count ≠ maxCount) (hq : s.lapse = []) :
    (s.exec [Cmd.Incr key]).data key = some ⟨e.count + 1, e.ttl⟩ ∧
    (s.exec [Cmd.Incr key]).lapse = [] := by
  simp [Redis.exec, hq, Redis.apply, Redis.incr, hpres, Redis.put, hmax]

theorem exec_count_ttl (s : Redis) (key : String) (e : Entry)
    (hpres : s.data key = some e) (hq : s.lapse = []) :
    ((s.exec [Cmd.Incr key]).data key).map Entry.ttl = some e.ttl := by
  by_cases hmax : e.count = maxCount
  · simp [Redis.exec, hq, Redis.apply, Redis.incr, hpres, Redis.put, hmax]
  · simp [Redis.exec, hq, Redis.apply, Redis.incr, hpres, Redis.put, hmax]

/-- Counterexample to C3 as stated: client `A`, limit three, duration sixty, one
request handled, and the lifetime of the record due to run out between the count
read and the batch of the next request.  That request reads the positive count
1, below the limit, and sends the increment alone, yet the expiry of the record
does not stay as it was: it was sixty before the request and is none after. -/
theorem expiry_lost_with_increment_alone :
    (run lim3 okHandler [Step.Request reqA, Step.ExpireAfterRead "httprate:A"]
        (World.init Redis.empty)).store.data reqA.key = some ⟨1, some 60⟩ ∧
    lim3.read reqA (run lim3 okHandler [Step.Request reqA, Step.ExpireAfterRead "httprate:A"]
        (World.init Redis.empty)) = IntReply.Val 1 ∧
    (lim3.Middleware okHandler ResponseWriter.fresh reqA
        (run lim3 okHandler [Step.Request reqA, Step.ExpireAfterRead "httprate:A"]
          (World.init Redis.empty))).2.ops
      = (run lim3 okHandler [Step.Request reqA, Step.ExpireAfterRead "httprate:A"]
          (World.init Redis.empty)).ops
        ++ [StoreOp.Get reqA.key, StoreOp.TxIncr reqA.key, StoreOp.TxExec [Cmd.Incr reqA.key]] ∧
    ((lim3.Middleware okHandler ResponseWriter.fresh reqA
        (run lim3 okHandler [Step.Request reqA, Step.ExpireAfterRead "httprate:A"]
          (World.init Redis.empty))).2.store.data reqA.key).map Entry.ttl = some none ∧
    ((lim3.Middleware okHandler ResponseWriter.fresh reqA
        (run lim3 okHandler [Step.Request reqA, Step.ExpireAfterRead "httprate:A"]
          (World.init Redis.empty))).2.store.data reqA.key).map Entry.ttl
      ≠ some (some 60) := by
  decide

/-- C3, amended: for an identified request whose count (read, or zero for an
absent key) is below the limit, the batch is the increment followed by the
expiry at the configured duration exactly when the count was zero, and the
increment alone otherwise; on the reference store, provided no lifetime runs out
between the count read and the batch, a request reading a positive count leaves
the expiry of the record as it was. -/
theorem expiry_only_on_opening_request {σ : Type} (l : Limiter σ) (next : Handler)
    (w : ResponseWriter) (r : Request) (x : World σ)
    (hid : getClientAddr r.Header ≠ "") (hget : ∀ msg, l.read r x ≠ IntReply.Failed msg)
    (hlt : l.current r x < l.config.MaxRequests) :
    ((l.Middleware next w r x).2.ops
        = x.ops ++ [StoreOp.Get r.key, StoreOp.TxIncr r.key,
            StoreOp.TxExpire r.key l.config.Duration,
            StoreOp.TxExec [Cmd.Incr r.key, Cmd.Expire r.key l.config.Duration]]
      ↔ l.current r x = 0) ∧
    ((l.Middleware next w r x).2.ops
        = x.ops ++ [StoreOp.Get r.key, StoreOp.TxIncr r.key, StoreOp.TxExec [Cmd.Incr r.key]]
      ↔ l.current r x ≠ 0) ∧
    (∀ (N D : Int) (y : World Redis) (e : Entry), y.store.data r.key = some e →
      0 < e.count → e.count < N → y.store.lapse = [] →
      (((NewLimiter ⟨redis, N, D⟩).Middleware next w r y).2.store.data r.key).map Entry.ttl
        = some e.ttl) := by
  obtain ⟨_, _, _, h4⟩ := Middleware_under l next w r x hid hget hlt
  refine ⟨?_, ?_, ?_⟩
  · rw [h4]
    unfold opsFor
    split <;> simp [*]
  · rw [h4]
    unfold opsFor
    split <;> simp [*]
  · intro N D y e hpres hpos hltN hq
    have hcur := redis_current_present N D r y e hpres
    rw [Middleware_redis_under N D next w r y hid (by rw [hcur]; exact hltN), hcur]
    have hne : e.count ≠ 0 := by omega
    simp only [batchFor, hne, if_false]
    exact exec_count_ttl y.store r.key e hpres hq

/-- Witness of the amended C3: the first request of client `A` opens the window
with an expiry, the second one leaves that expiry alone. -/
theorem expiry_only_on_opening_request_witness :
    (lim3.Middleware okHandler ResponseWriter.fresh reqA (World.init Redis.empty)).2.ops
      = (World.init Redis.empty).ops ++ [StoreOp.Get reqA.key, StoreOp.TxIncr reqA.key,
          StoreOp.TxExpire reqA.key lim3.config.Duration,
          StoreOp.TxExec [Cmd.Incr reqA.key, Cmd.Expire reqA.key lim3.config.Duration]] ∧
    ((lim3.Middleware okHandler ResponseWriter.fresh reqA
        (serveN lim3 okHandler reqA 1 (World.init Redis.empty))).2.store.data reqA.key).map
          Entry.ttl = some (some 60) :=
  ⟨(expiry_only_on_opening_request lim3 okHandler ResponseWriter.fresh reqA
      (World.init Redis.empty) (by decide) (redis_read_not_failed 3 60 reqA _)
      (by decide)).1.mpr (by decide),
   (expiry_only_on_opening_request lim3 okHandler ResponseWriter.fresh reqA
      (World.init Redis.empty) (by decide) (redis_read_not_failed 3 60 reqA _)
      (by decide)).2.2 3 60 (serveN lim3 okHandler reqA 1 (World.init Redis.empty))
      ⟨1, some 60⟩ (by decide) (by decide) (by decide) (by decide)⟩

/-! ## Sequential requests of one client -/

/-- First request of a window on the reference store. -/
theorem redis_step_open (N D : Int) (next : Handler) (w : ResponseWriter) (r : Request)
    (x : World Redis) (hid : getClientAddr r.Header ≠ "") (hN : 1 ≤ N) (hD : 0 < D)
    (habs : x.store.data r.key = none) (hq : x.store.lapse = []) :
    ((NewLimiter ⟨redis, N, D⟩).Middleware next w r x).1 = next w r ∧
    ((NewLimiter ⟨redis, N, D⟩).Middleware next w r x).2.served = x.served + 1 ∧
    ((NewLimiter ⟨redis, N, D⟩).Middleware next w r x).2.store.data r.key
      = some ⟨1, some D⟩ ∧
    ((NewLimiter ⟨redis, N, D⟩).Middleware next w r x).2.store.lapse = [] := by
  have hcur := redis_current_absent N D r x habs
  have hlt : (NewLimiter ⟨redis, N, D⟩).current r x < N := by rw [hcur]; omega
  obtain ⟨h1, h2, _, _⟩ := Middleware_under (NewLimiter ⟨redis, N, D⟩) next w r x hid
    (redis_read_not_failed N D r x) hlt
  refine ⟨h1, h2, ?_⟩
  rw [Middleware_redis_under N D next w r x hid hlt, hcur]
  simp only [batchFor, if_true]
  exact exec_open x.store r.key D hD habs hq

/-- Later request of a window, below the limit, on the reference store. -/
theorem redis_step_count (N D : Int) (next : Handler) (w : ResponseWriter) (r : Request)
    (x : World Redis) (e : Entry) (hid : getClientAddr r.Header ≠ "")
    (hpres : x.store.data r.key = some e) (hpos : 0 < e.count) (hlt : e.count < N)
    (hN64 : N ≤ maxCount) (hq : x.store.lapse = []) :
    ((NewLimiter ⟨redis, N, D⟩).Middleware next w r x).1 = next w r ∧
    ((NewLimiter ⟨redis, N, D⟩).Middleware next w r x).2.served = x.served + 1 ∧
    ((NewLimiter ⟨redis, N, D⟩).Middleware next w r x).2.store.data r.key
      = some ⟨e.count + 1, e.ttl⟩ ∧
    ((NewLimiter ⟨redis, N, D⟩).Middleware next w r x).2.store.lapse = [] := by
  have hcur := redis_current_present N D r x e hpres
  have hlt2 : (NewLimiter ⟨redis, N, D⟩).current r x < N := by rw [hcur]; exact hlt
  obtain ⟨h1, h2, _, _⟩ := Middleware_under (NewLimiter ⟨redis, N, D⟩) next w r x hid
    (redis_read_not_failed N D r x) hlt2
  refine ⟨h1, h2, ?_⟩
  rw [Middleware_redis_under N D next w r x hid hlt2, hcur]
  have hne : e.count ≠ 0 := by omega
  simp only [batchFor, hne, if_false]
  exact exec_count x.store r.key e hpres (by omega) hq

/-- Request at or above the limit on the reference store. -/
theorem redis_step_over (N D : Int) (next : Handler) (w : ResponseWriter) (r : Request)
    (x : World Redis) (e : Entry) (hid : getClientAddr r.Header ≠ "")
    (hpres : x.store.data r.key = some e) (hge : N ≤ e.count) :
    ((NewLimiter ⟨redis, N, D⟩).Middleware next w r x).1
      = httpError w "Rate limit exceeded" StatusTooManyRequests ∧
    ((NewLimiter ⟨redis, N, D⟩).Middleware next w r x).2.served = x.served ∧
    ((NewLimiter ⟨redis, N, D⟩).Middleware next w r x).2.store = x.store := by
  have hcur := redis_current_present N D r x e hpres
  have hge2 : (NewLimiter ⟨redis, N, D⟩).config.MaxRequests
      ≤ (NewLimiter ⟨redis, N, D⟩).current r x := by rw [hcur]; exact hge
  rw [Middleware_over (NewLimiter ⟨redis, N, D⟩) next w r x hid
    (redis_read_not_failed N D r x) hge2]
  exact ⟨rfl, rfl, rfl⟩

/-- State of the world after `k` sequential requests of one client that started
with its key absent. -/
theorem serveN_state (N D : Int) (next : Handler) (r : Request) (x0 : World Redis)
    (hid : getClientAddr r.Header ≠ "") (hN : 1 ≤ N) (hN64 : N ≤ maxCount) (hD : 0 < D)
    (habs : x0.store.data r.key = none) (hq : x0.store.lapse = []) (k : Nat) :
    (serveN (NewLimiter ⟨redis, N, D⟩) next r k x0).store.lapse = [] ∧
    (serveN (NewLimiter ⟨redis, N, D⟩) next r k x0).served = x0.served + min k N.toNat ∧
    (k = 0 → (serveN (NewLimiter ⟨redis, N, D⟩) next r k x0).store.data r.key = none) ∧
    (1 ≤ k → (serveN (NewLimiter ⟨redis, N, D⟩) next r k x0).store.data r.key
      = some ⟨min (k : Int) N, some D⟩) := by
  induction k with
  | zero => exact ⟨hq, by simp [serveN], fun _ => habs, fun h => absurd h (by omega)⟩
  | succ k ih =>
    obtain ⟨ihq, ihs, ih0, ih1⟩ := ih
    simp only [serveN]
    rcases Nat.eq_zero_or_pos k with hk | hk
    · obtain ⟨_, s2, s3, s4⟩ := redis_step_open N D next ResponseWriter.fresh r _ hid hN hD
        (ih0 hk) ihq
      refine ⟨s4, ?_, fun h => absurd h (by omega), fun _ => ?_⟩
      · rw [s2, ihs]; omega
      · rw [s3]
        have : min ((k + 1 : Nat) : Int) N = 1 := by omega
        rw [this]
    · have hpres := ih1 hk
      by_cases hlt : (k : Int) < N
      · obtain ⟨_, s2, s3, s4⟩ := redis_step_count N D next ResponseWriter.fresh r _ _ hid
          hpres (by simp only; omega) (by simp only; omega) hN64 ihq
        refine ⟨s4, ?_, fun h => absurd h (by omega), fun _ => ?_⟩
        · rw [s2, ihs]; omega
        · rw [s3]
          have : min (k : Int) N + 1 = min ((k + 1 : Nat) : Int) N := by omega
          simp only [this]
      · obtain ⟨_, s2, s3⟩ := redis_step_over N D next ResponseWriter.fresh r _ _ hid
          hpres (by simp only; omega)
        rw [s3, s2]
        refine ⟨ihq, ?_, fun h => absurd h (by omega), fun _ => ?_⟩
        · rw [ihs]; omega
        · rw [hpres]
          have : min (k : Int) N = min ((k + 1 : Nat) : Int) N := by omega
          simp only [this]

theorem httpError_status (w : ResponseWriter) (msg : String) (code : Nat)
    (hw : w.status = none) : (httpError w msg code).status = some code := by
  simp [httpError, ResponseWriter.Write, ResponseWriter.WriteHeader, ResponseWriter.Set,
    ResponseWriter.Del, hw]

/-- C1: one client with a non-empty identity, a limit `N` of at least one (a Go
`int`, so at most `maxCount`), a positive duration, the key absent at the start,
the reference store with no lifetime running out, requests handled one after
another.  The `k`-th request reaches the inner handler exactly when `k ≤ N`;
it then leaves the stored count at `k`; for `k > N` it is answered by the 429
error response, the inner handler is not called, and the store stays as it was,
the count at `N`. -/
theorem sequential_limit (N D : Int) (next : Handler) (r : Request) (x0 : World Redis)
    (w : ResponseWriter) (k : Nat)
    (hid : getClientAddr r.Header ≠ "") (hN : 1 ≤ N) (hN64 : N ≤ maxCount) (hD : 0 < D)
    (habs : x0.store.data r.key = none) (hq : x0.store.lapse = [])
    (hw : w.status = none) (hk : 1 ≤ k) :
    ((kthRequest (NewLimiter ⟨redis, N, D⟩) next r w k x0).2.served
        = (serveN (NewLimiter ⟨redis, N, D⟩) next r (k - 1) x0).served + 1 ↔ (k : Int) ≤ N) ∧
    ((k : Int) ≤ N →
      (kthRequest (NewLimiter ⟨redis, N, D⟩) next r w k x0).1 = next w r ∧
      (kthRequest (NewLimiter ⟨redis, N, D⟩) next r w k x0).2.store.data r.key
        = some ⟨k, some D⟩) ∧
    (N < (k : Int) →
      (kthRequest (NewLimiter ⟨redis, N, D⟩) next r w k x0).1
        = httpError w "Rate limit exceeded" 429 ∧
      (kthRequest (NewLimiter ⟨redis, N, D⟩) next r w k x0).1.status = some 429 ∧
      (kthRequest (NewLimiter ⟨redis, N, D⟩) next r w k x0).2.served
        = (serveN (NewLimiter ⟨redis, N, D⟩) next r (k - 1) x0).served ∧
      (kthRequest (NewLimiter ⟨redis, N, D⟩) next r w k x0).2.store
        = (serveN (NewLimiter ⟨redis, N, D⟩) next r (k - 1) x0).store ∧
      (kthRequest (NewLimiter ⟨redis, N, D⟩) next r w k x0).2.store.data r.key
        = some ⟨N, some D⟩) := by
  obtain ⟨iq, _, i0, i1⟩ := serveN_state N D next r x0 hid hN hN64 hD habs hq (k - 1)
  unfold kthRequest
  rcases Nat.eq_zero_or_pos (k - 1) with hk0 | hkpos
  · obtain ⟨s1, s2, s3, _⟩ := redis_step_open N D next w r _ hid hN hD (i0 hk0) iq
    have hk1 : k = 1 := by omega
    subst hk1
    refine ⟨⟨fun _ => by simpa using hN, fun _ => s2⟩, fun _ => ⟨s1, ?_⟩,
      fun h => absurd h (by omega)⟩
    rw [s3]; rfl
  · have hpres := i1 hkpos
    by_cases hle : (k : Int) ≤ N
    · obtain ⟨s1, s2, s3, _⟩ := redis_step_count N D next w r _ _ hid hpres
        (by simp only; omega) (by simp only; omega) hN64 iq
      refine ⟨⟨fun _ => hle, fun _ => s2⟩, fun _ => ⟨s1, ?_⟩, fun h => absurd h (by omega)⟩
      rw [s3]
      have : min (((k - 1 : Nat)) : Int) N + 1 = (k : Int) := by omega
      simp only [this]
    · obtain ⟨s1, s2, s3⟩ := redis_step_over N D next w r _ _ hid hpres (by simp only; omega)
      refine ⟨⟨fun h => ?_, fun h => absurd h hle⟩, fun h => absurd h hle, fun _ => ?_⟩
      · rw [s2] at h; omega
      · refine ⟨s1, ?_, s2, s3, ?_⟩
        · rw [s1]; exact httpError_status w _ _ hw
        · rw [s3, hpres]
          have : min (((k - 1 : Nat)) : Int) N = N := by omega
          simp only [this]

/-- Witness of C1: client `A` under a limit of three; the third request is
served and leaves the count at three, the fourth is rejected. -/
theorem sequential_limit_witness :
    ((kthRequest lim3 okHandler reqA ResponseWriter.fresh 3 (World.init Redis.empty)).1
        = okHandler ResponseWriter.fresh reqA ∧
      (kthRequest lim3 okHandler reqA ResponseWriter.fresh 3
        (World.init Redis.empty)).2.store.data reqA.key = some ⟨3, some 60⟩) ∧
    ((kthRequest lim3 okHandler reqA ResponseWriter.fresh 4 (World.init Redis.empty)).1
        = httpError ResponseWriter.fresh "Rate limit exceeded" 429 ∧
      (kthRequest lim3 okHandler reqA ResponseWriter.fresh 4 (World.init Redis.empty)).1.status
        = some 429 ∧
      (kthRequest lim3 okHandler reqA ResponseWriter.fresh 4 (World.init Redis.empty)).2.served
        = (serveN lim3 okHandler reqA (4 - 1) (World.init Redis.empty)).served ∧
      (kthRequest lim3 okHandler reqA ResponseWriter.fresh 4 (World.init Redis.empty)).2.store
        = (serveN lim3 okHandler reqA (4 - 1) (World.init Redis.empty)).store ∧
      (kthRequest lim3 okHandler reqA ResponseWriter.fresh 4
        (World.init Redis.empty)).2.store.data reqA.key = some ⟨3, some 60⟩) :=
  ⟨(sequential_limit 3 60 okHandler reqA (World.init Redis.empty) ResponseWriter.fresh 3
      (by decide) (by decide) (by decide) (by decide) rfl rfl rfl (by decide)).2.1 (by decide),
   (sequential_limit 3 60 okHandler reqA (World.init Redis.empty) ResponseWriter.fresh 4
      (by decide) (by decide) (by decide) (by decide) rfl rfl rfl (by decide)).2.2 (by decide)⟩

/-! ## Expiry inside a request -/

/-- C2 fails on the code: client `A`, limit three, duration sixty.  The first
request opens the window; the lifetime of the record runs out after the count
read of the second request and before its batch, so the increment recreates the
record and no expiry is queued.  The record is left without expiry, it survives
every later lapse of time, and once its count reaches the limit the client
stays rejected. -/
theorem window_record_left_without_expiry :
    (run lim3 okHandler
        [Step.Request reqA, Step.ExpireAfterRead "httprate:A", Step.Request reqA]
        (World.init Redis.empty)).store.data "httprate:A" = some ⟨1, none⟩ ∧
    ¬ (run lim3 okHandler
        [Step.Request reqA, Step.ExpireAfterRead "httprate:A", Step.Request reqA]
        (World.init Redis.empty)).store.allExpire 60 ∧
    (run lim3 okHandler
        [Step.Request reqA, Step.ExpireAfterRead "httprate:A", Step.Request reqA]
        (World.init Redis.empty)).ops
      = [StoreOp.Get "httprate:A", StoreOp.TxIncr "httprate:A",
          StoreOp.TxExpire "httprate:A" 60,
          StoreOp.TxExec [Cmd.Incr "httprate:A", Cmd.Expire "httprate:A" 60],
          StoreOp.Get "httprate:A", StoreOp.TxIncr "httprate:A",
          StoreOp.TxExec [Cmd.Incr "httprate:A"]] ∧
    (run lim3 okHandler
        [Step.Request reqA, Step.ExpireAfterRead "httprate:A", Step.Request reqA,
          Step.Request reqA, Step.Request reqA, Step.Expire "httprate:A", Step.Request reqA]
        (World.init Redis.empty)).store.data "httprate:A" = some ⟨3, none⟩ ∧
    (run lim3 okHandler
        [Step.Request reqA, Step.ExpireAfterRead "httprate:A", Step.Request reqA,
          Step.Request reqA, Step.Request reqA, Step.Expire "httprate:A", Step.Request reqA]
        (World.init Redis.empty)).served = 4 := by
  refine ⟨by decide, ?_, by decide, by decide, by decide⟩
  intro h
  obtain ⟨d, hd, _⟩ := h "httprate:A" ⟨1, none⟩ (by decide)
  simp at hd

/-! ## Expiry between requests only -/

/-- With no lifetime running out between read and batch, the batch of a request
keeps every record under an expiry of at most the configured duration. -/
theorem exec_allExpire (s : Redis) (key : String) (D cur : Int) (hD : 0 < D)
    (hinv : s.allExpire D) (hq : s.lapse = [])
    (hcur : cur = (match s.data key with
      | some e => e.count
      | none => 0)) :
    (s.exec (batchFor key cur D)).allExpire D ∧ (s.exec (batchFor key cur D)).lapse = [] := by
  cases hdata : s.data key with
  | none =>
    rw [hdata] at hcur
    subst hcur
    refine ⟨?_, ?_⟩
    · intro k e hk
      by_cases hkey : k = key
      · subst hkey
        simp [batchFor, Redis.exec, hq, Redis.apply, Redis.incr, hdata, Redis.expire,
          Redis.put, hD] at hk
        exact ⟨D, by rw [← hk], le_refl D⟩
      · simp [batchFor, Redis.exec, hq, Redis.apply, Redis.incr, hdata, Redis.expire,
          Redis.put, hD, hkey] at hk
        exact hinv k e hk
    · simp [batchFor, Redis.exec, hq, Redis.apply, Redis.incr, hdata, Redis.expire,
        Redis.put, hD]
  | some e0 =>
    rw [hdata] at hcur
    subst hcur
    obtain ⟨d0, hd0, hle0⟩ := hinv key e0 hdata
    by_cases hzero : e0.count = 0
    · have hmax : ¬ ((0 : Int) = maxCount) := by decide
      refine ⟨?_, ?_⟩
      · intro k e hk
        by_cases hkey : k = key
        · subst hkey
          simp [batchFor, hzero, Redis.exec, hq, Redis.apply, Redis.incr, hdata, Redis.expire,
            Redis.put, hD, hmax] at hk
          exact ⟨D, by rw [← hk], le_refl D⟩
        · simp [batchFor, hzero, Redis.exec, hq, Redis.apply, Redis.incr, hdata, Redis.expire,
            Redis.put, hD, hmax, hkey] at hk
          exact hinv k e hk
      · simp [batchFor, hzero, Redis.exec, hq, Redis.apply, Redis.incr, hdata, Redis.expire,
          Redis.put, hD, hmax]
    · by_cases hmax : e0.count = maxCount
      · have hm0 : ¬ (maxCount = 0) := by decide
        refine ⟨?_, ?_⟩
        · intro k e hk
          simp [batchFor, Redis.exec, hq, Redis.apply, Redis.incr, hdata, hmax, hm0] at hk
          exact hinv k e hk
        · simp [batchFor, Redis.exec, hq, Redis.apply, Redis.incr, hdata, hmax, hm0]
      · refine ⟨?_, ?_⟩
        · intro k e hk
          by_cases hkey : k = key
          · subst hkey
            simp [batchFor, hzero, Redis.exec, hq, Redis.apply, Redis.incr, hdata,
              Redis.put, hmax] at hk
            exact ⟨d0, by rw [← hk]; exact hd0, hle0⟩
          · simp [batchFor, hzero, Redis.exec, hq, Redis.apply, Redis.incr, hdata,
              Redis.put, hmax, hkey] at hk
            exact hinv k e hk
        · simp [batchFor, hzero, Redis.exec, hq, Redis.apply, Redis.incr, hdata,
            Redis.put, hmax]

/-- A request handled with no lifetime pending keeps every record under an
expiry. -/
theorem Middleware_allExpire (N D : Int) (next : Handler) (w : ResponseWriter) (r : Request)
    (x : World Redis) (hD : 0 < D) (hinv : x.store.allExpire D) (hq : x.store.lapse = []) :
    ((NewLimiter ⟨redis, N, D⟩).Middleware next w r x).2.store.allExpire D ∧
    ((NewLimiter ⟨redis, N, D⟩).Middleware next w r x).2.store.lapse = [] := by
  by_cases hid : getClientAddr r.Header = ""
  · rw [Middleware_unresolved _ next w r x hid]
    exact ⟨hinv, hq⟩
  · by_cases hlt : (NewLimiter ⟨redis, N, D⟩).current r x < N
    · rw [Middleware_redis_under N D next w r x hid hlt]
      apply exec_allExpire x.store r.key D _ hD hinv hq
      cases hdata : x.store.data r.key with
      | none => exact redis_current_absent N D r x hdata
      | some e => exact redis_current_present N D r x e hdata
    · rw [Middleware_over (NewLimiter ⟨redis, N, D⟩) next w r x hid
        (redis_read_not_failed N D r x) (not_lt.mp hlt)]
      exact ⟨hinv, hq⟩

/-- The invariant behind C2 where the code keeps it: in a sequential execution
whose lifetimes run out between requests only, started from a store in which
every record carries an expiry of at most the duration, every record still
does after any number of steps. -/
theorem run_allExpire (N D : Int) (next : Handler) (steps : List Step) (x : World Redis)
    (hD : 0 < D) (hsteps : ∀ s ∈ steps, s.between = true)
    (hinv : x.store.allExpire D) (hq : x.store.lapse = []) :
    (run (NewLimiter ⟨redis, N, D⟩) next steps x).store.allExpire D ∧
    (run (NewLimiter ⟨redis, N, D⟩) next steps x).store.lapse = [] := by
  induction steps generalizing x with
  | nil => exact ⟨hinv, hq⟩
  | cons s rest ih =>
    have hrest : ∀ t ∈ rest, t.between = true := fun t ht => hsteps t (List.mem_cons_of_mem _ ht)
    have hs := hsteps s (List.mem_cons_self _ _)
    simp only [run, List.foldl_cons]
    cases s with
    | Request r =>
      obtain ⟨h1, h2⟩ := Middleware_allExpire N D next ResponseWriter.fresh r x hD hinv hq
      exact ih _ hrest h1 h2
    | Expire key =>
      refine ih _ hrest ?_ ?_
      · intro k e hk
        simp only [step, Redis.elapse] at hk
        split at hk
        · split at hk
          · simp only [Redis.del] at hk
            split at hk
            · exact absurd hk (by simp)
            · exact hinv k e hk
          · exact hinv k e hk
        · exact hinv k e hk
      · simp only [step, Redis.elapse]
        split
        · split <;> simp [Redis.del, hq]
        · exact hq
    | ExpireAfterRead key => exact absurd hs (by simp [Step.between])

end RateLimit
